import Mathlib

/-!
Verification of the RSVP reader (`src/main.rs`).

The program keeps four mutable variables in `main`: `current_idx : usize`,
`wpm : u32`, `paused : bool` and `last_update : Instant`. We embed them as a
structure over `Nat`/`Bool`, with timestamps measured in milliseconds from an
arbitrary origin (so `last_update.elapsed()` becomes `now - last_update` with
truncating `Nat` subtraction, matching that an `Instant` never runs backwards).
`u32` arithmetic is modelled on `Nat` with explicit saturation at `2^32 - 1`;
`Vec` indices are `Nat` (the index never exceeds the word count, so `usize`
overflow cannot occur in the bounds the program maintains).

The key handlers of `main`'s `match key.code` arms and the auto-advance block
at the bottom of the loop are each embedded as a pure state transformer.
`60_000 / wpm as u64` (line 80) panics in Rust when `wpm = 0`; the embedding
returns `Option Nat`, `none` standing for the panic.
-/

/-- Mutable loop state of `main`: `current_idx`, `wpm`, `paused`,
`last_update` (milliseconds). -/
structure PlaybackState where
  current_idx : Nat
  wpm : Nat
  paused : Bool
  last_update : Nat
  deriving DecidableEq, Repr

/-- Largest value of a `u32`. -/
def u32Max : Nat := 2 ^ 32 - 1

/-- `u32::saturating_add` on the `Nat` model. -/
def satAdd32 (a b : Nat) : Nat := min (a + b) u32Max

/-- `fn get_orp_index(len: usize) -> usize`: the ordered range match
`0..=1 => 0, 2..=5 => 1, 6..=9 => 2, 10..=13 => 3, _ => 4`. -/
def get_orp_index (len : Nat) : Nat :=
  if len ≤ 1 then 0
  else if len ≤ 5 then 1
  else if len ≤ 9 then 2
  else if len ≤ 13 then 3
  else 4

/-- Line 80, `Duration::from_millis(60_000 / wpm as u64)`: the per-iteration
auto-advance interval. Rust integer division panics on a zero divisor, which
the embedding reports as `none`. -/
def delayMs (wpm : Nat) : Option Nat :=
  if wpm = 0 then none else some (60000 / wpm)

/-- `' '` arm (lines 161-164): flip `paused`, reset `last_update` to now. -/
def toggle_pause (now : Nat) (s : PlaybackState) : PlaybackState :=
  { s with paused := !s.paused, last_update := now }

/-- `'n'` arm (lines 165-170): increment `current_idx` when `current_idx + 1 <
words.len()`, reset `last_update` either way. -/
def step_forward (len now : Nat) (s : PlaybackState) : PlaybackState :=
  { s with
    current_idx := if s.current_idx + 1 < len then s.current_idx + 1 else s.current_idx,
    last_update := now }

/-- `'p'` arm (lines 171-174): `current_idx.saturating_sub(1)` (which is plain
`Nat` subtraction), reset `last_update`. -/
def step_backward (now : Nat) (s : PlaybackState) : PlaybackState :=
  { s with current_idx := s.current_idx - 1, last_update := now }

/-- `'u'` arm (lines 175-177): `wpm.saturating_add(25)`. -/
def increase_rate (s : PlaybackState) : PlaybackState :=
  { s with wpm := satAdd32 s.wpm 25 }

/-- `'d'` arm (lines 178-180): `wpm.saturating_sub(25).max(25)`. -/
def decrease_rate (s : PlaybackState) : PlaybackState :=
  { s with wpm := max (s.wpm - 25) 25 }

/-- Auto-advance block (lines 186-194). `delay` is the interval the enclosing
iteration computed at line 80 (it is a local of the iteration, so a rate key
handled in the same iteration does not change it); `now` is the current time,
so `now - s.last_update` is `last_update.elapsed()`. -/
def tick (len delay now : Nat) (s : PlaybackState) : PlaybackState :=
  if s.paused = false ∧ delay ≤ now - s.last_update then
    if s.current_idx + 1 < len then
      { s with current_idx := s.current_idx + 1, last_update := now }
    else
      { s with paused := true, current_idx := len }
  else s

/-- Initial state (lines 69-77): `current_idx = 0`, `wpm` from the CLI,
`paused = true`, `last_update = now` (taken as the time origin 0). -/
def initState (wpm0 : Nat) : PlaybackState :=
  ⟨0, wpm0, true, 0⟩

/-- One state-machine operation, at word count `len`. The `doTick` constructor
leaves `delay` arbitrary: the loop feeds it the interval computed at the start
of the iteration, so every concrete execution instantiates it with
`60000 / wpm` for some wpm the state held during that iteration. -/
inductive Step (len : Nat) : PlaybackState → PlaybackState → Prop where
  | toggle (s : PlaybackState) (now : Nat) : Step len s (toggle_pause now s)
  | forward (s : PlaybackState) (now : Nat) : Step len s (step_forward len now s)
  | backward (s : PlaybackState) (now : Nat) : Step len s (step_backward now s)
  | inc (s : PlaybackState) : Step len s (increase_rate s)
  | dec (s : PlaybackState) : Step len s (decrease_rate s)
  | doTick (s : PlaybackState) (delay now : Nat) : Step len s (tick len delay now s)

/-- States reachable from the initial state by the six operations. -/
def Reachable (len wpm0 : Nat) (s : PlaybackState) : Prop :=
  Relation.ReflTransGen (Step len) (initState wpm0) s

/-- Same operations, but `toggle_pause` is never applied in a state with
`current_idx = len` (the Finished state). -/
inductive StepNT (len : Nat) : PlaybackState → PlaybackState → Prop where
  | toggle (s : PlaybackState) (now : Nat) (h : s.current_idx ≠ len) :
      StepNT len s (toggle_pause now s)
  | forward (s : PlaybackState) (now : Nat) : StepNT len s (step_forward len now s)
  | backward (s : PlaybackState) (now : Nat) : StepNT len s (step_backward now s)
  | inc (s : PlaybackState) : StepNT len s (increase_rate s)
  | dec (s : PlaybackState) : StepNT len s (decrease_rate s)
  | doTick (s : PlaybackState) (delay now : Nat) : StepNT len s (tick len delay now s)

/-- States reachable without toggling pause while Finished. -/
def ReachableNT (len wpm0 : Nat) (s : PlaybackState) : Prop :=
  Relation.ReflTransGen (StepNT len) (initState wpm0) s

/-- The documented PlaybackState invariant. -/
def PlaybackInv (len : Nat) (s : PlaybackState) : Prop :=
  s.current_idx ≤ len ∧ (s.current_idx = len → s.paused = true)

theorem idx_le_of_step {len : Nat} {s s' : PlaybackState} (h : Step len s s')
    (hle : s.current_idx ≤ len) : s'.current_idx ≤ len := by
  cases h with
  | toggle now => simpa [toggle_pause] using hle
  | forward now => simp only [step_forward]; split <;> omega
  | backward now => simp only [step_backward]; omega
  | inc => simpa [increase_rate] using hle
  | dec => simpa [decrease_rate] using hle
  | doTick delay now =>
      simp only [tick]
      split
      · split
        · next h => exact Nat.le_of_lt h
        · exact Nat.le_refl len
      · exact hle

theorem idx_le_of_reachable {len wpm0 : Nat} {s : PlaybackState}
    (h : Reachable len wpm0 s) : s.current_idx ≤ len := by
  induction h with
  | refl => simp [initState]
  | tail _ hstep ih => exact idx_le_of_step hstep ih

theorem inv_of_stepNT {len : Nat} {s s' : PlaybackState} (h : StepNT len s s')
    (hinv : PlaybackInv len s) : PlaybackInv len s' := by
  obtain ⟨hle, hfin⟩ := hinv
  cases h with
  | toggle now hne =>
      refine ⟨by simpa [toggle_pause] using hle, ?_⟩
      intro hidx
      exact absurd (by simpa [toggle_pause] using hidx) hne
  | forward now =>
      constructor
      · simp only [step_forward]; split <;> omega
      · simp only [step_forward]
        split
        · intro hidx; exact absurd hidx (by omega)
        · intro hidx; exact hfin hidx
  | backward now =>
      constructor
      · simp only [step_backward]; omega
      · simp only [step_backward]
        intro hidx
        have hidx0 : s.current_idx = len := by omega
        exact hfin hidx0
  | inc =>
      exact ⟨by simpa [increase_rate] using hle, fun hidx => hfin (by simpa [increase_rate] using hidx)⟩
  | dec =>
      exact ⟨by simpa [decrease_rate] using hle, fun hidx => hfin (by simpa [decrease_rate] using hidx)⟩
  | doTick delay now =>
      simp only [tick]
      split
      · split
        · next h =>
            exact ⟨Nat.le_of_lt h,
              fun hidx => absurd (show s.current_idx + 1 = len from hidx) (by omega)⟩
        · exact ⟨le_refl len, fun _ => rfl⟩
      · exact ⟨hle, hfin⟩

theorem inv_of_reachableNT {len wpm0 : Nat} {s : PlaybackState}
    (h : ReachableNT len wpm0 s) : PlaybackInv len s := by
  induction h with
  | refl => exact ⟨Nat.zero_le _, fun h0 => rfl⟩
  | tail _ hstep ih => exact inv_of_stepNT hstep ih

theorem wpm_pos_of_step {len : Nat} {s s' : PlaybackState} (h : Step len s s')
    (hw : 1 ≤ s.wpm) : 1 ≤ s'.wpm := by
  cases h with
  | toggle now => simpa [toggle_pause] using hw
  | forward now => simpa [step_forward] using hw
  | backward now => simpa [step_backward] using hw
  | inc =>
      have h25 : (25 : Nat) ≤ min (s.wpm + 25) (2 ^ 32 - 1) :=
        le_min (by omega) (by norm_num)
      simp only [increase_rate, satAdd32, u32Max]
      omega
  | dec =>
      simp only [decrease_rate]
      omega
  | doTick delay now =>
      simp only [tick]
      split
      · split <;> simpa using hw
      · exact hw

theorem wpm_pos_of_reachable {len wpm0 : Nat} {s : PlaybackState}
    (hw : 1 ≤ wpm0) (h : Reachable len wpm0 s) : 1 ≤ s.wpm := by
  induction h with
  | refl => simpa [initState] using hw
  | tail _ hstep ih => exact wpm_pos_of_step hstep ih

/-- Unicode `White_Space` property, as used by Rust's `char::is_whitespace`
(and hence by `str::split_whitespace`). -/
def rustIsWhitespace (c : Char) : Bool :=
  decide ((9 ≤ c.toNat ∧ c.toNat ≤ 13) ∨ c.toNat = 32 ∨ c.toNat = 133 ∨
    c.toNat = 160 ∨ c.toNat = 5760 ∨ (8192 ≤ c.toNat ∧ c.toNat ≤ 8202) ∨
    c.toNat = 8232 ∨ c.toNat = 8233 ∨ c.toNat = 8239 ∨ c.toNat = 8287 ∨
    c.toNat = 12288)

/-- Accumulator pass of `split_whitespace`: `cur` holds the characters of the
word in progress, reversed. -/
def splitWsAux : List Char → List Char → List (List Char)
  | [], cur => if cur.isEmpty then [] else [cur.reverse]
  | c :: rest, cur =>
      if rustIsWhitespace c then
        if cur.isEmpty then splitWsAux rest []
        else cur.reverse :: splitWsAux rest []
      else splitWsAux rest (c :: cur)

/-- Line 61, `text.split_whitespace().collect()`: the whitespace-separated
tokens of the text, empty tokens discarded. -/
def split_whitespace (text : List Char) : List (List Char) :=
  splitWsAux text []

/-- Key codes the dispatcher distinguishes (lines 159-181): a character key,
the escape key, or anything else (covered by the `_ => {}` arm). -/
inductive KeyCode where
  | char (c : Char)
  | esc
  | other
  deriving DecidableEq, Repr

/-- What one `event::poll`/`event::read` round yields: a timeout (`poll`
returned false), a non-key event, or a key event with its release flag
(`KeyEventKind::Release`; press and repeat are both non-release). -/
inductive PollResult where
  | timeout
  | nonKey
  | key (release : Bool) (code : KeyCode)
  deriving DecidableEq, Repr

/-- Environment input for one loop iteration: whether any of the iteration's
terminal-IO calls fails (each `?` would propagate the error), the current
time in ms, and what the poll produced. -/
structure Iter where
  ioFail : Bool
  now : Nat
  ev : PollResult
  deriving DecidableEq, Repr

/-- First match arm (line 160): `'q'` or escape quits. -/
def isQuitB (code : KeyCode) : Bool :=
  match code with
  | .char c => c = 'q'
  | .esc => true
  | .other => false

/-- The non-quit arms of `match key.code` (lines 161-181). -/
def handleKey (len now : Nat) (code : KeyCode) (s : PlaybackState) : PlaybackState :=
  match code with
  | .char ' ' => toggle_pause now s
  | .char 'n' => step_forward len now s
  | .char 'p' => step_backward now s
  | .char 'u' => increase_rate s
  | .char 'd' => decrease_rate s
  | _ => s

/-- How a run of the `loop` (lines 79-195) ends: `break` on quit, a
propagated terminal-IO error, the divide-by-zero panic at line 80, or the
supplied iteration inputs running out with the loop still going. -/
inductive LoopOutcome where
  | broke (s : PlaybackState)
  | ioErr
  | panicked
  | fuelOut (s : PlaybackState)
  deriving DecidableEq, Repr

/-- The main `loop` (lines 79-195), one `Iter` of environment input per
iteration: compute `delay` from the current `wpm` (line 80, panics when 0),
render (any IO failure exits via `?`), poll; a release key `continue`s past
the tick, quit breaks, any other key is dispatched and then the auto-advance
block (lines 186-194) runs with the `delay` computed at the iteration start. -/
def runLoop (len : Nat) : List Iter → PlaybackState → LoopOutcome
  | [], s => .fuelOut s
  | it :: rest, s =>
      match delayMs s.wpm with
      | none => .panicked
      | some delay =>
          if it.ioFail then .ioErr
          else
            match it.ev with
            | .timeout => runLoop len rest (tick len delay it.now s)
            | .nonKey => runLoop len rest (tick len delay it.now s)
            | .key true _ => runLoop len rest s
            | .key false code =>
                if isQuitB code then .broke s
                else runLoop len rest (tick len delay it.now (handleKey len it.now code s))

/-- Process-level outcome of `main`: normal return of `Ok(())` (exit code 0)
with the observable flags, an `Err` return (nonzero exit code), a panic
(nonzero exit code), or the loop still running when the inputs run out. -/
inductive MainResult where
  | exitOk (diagnostic enteredRaw loopEntered : Bool)
  | exitErr
  | panicked
  | running
  deriving DecidableEq, Repr

/-- `main` (lines 39-202) after CLI parsing: `acq` is the acquired text (or a
source-acquisition error propagated by `?`), `setupOk` whether
`enable_raw_mode`/`EnterAlternateScreen` succeed, `teardownOk` whether the
restore after the loop succeeds. With empty tokens (lines 62-67) the
diagnostic goes to stderr and `main` returns `Ok(())` before any terminal
setup; otherwise the loop runs from `current_idx = 0`, `paused = true`. -/
def runMain (acq : Except Unit (List Char)) (wpm0 : Nat) (setupOk : Bool)
    (iters : List Iter) (teardownOk : Bool) : MainResult :=
  match acq with
  | .error _ => .exitErr
  | .ok text =>
      let ws := split_whitespace text
      if ws.isEmpty then .exitOk true false false
      else if !setupOk then .exitErr
      else
        match runLoop ws.length iters (initState wpm0) with
        | .broke _ => if teardownOk then .exitOk false true true else .exitErr
        | .ioErr => .exitErr
        | .panicked => .panicked
        | .fuelOut _ => .running

/-- An iteration whose event is a non-release quit key. -/
def isQuitIter (it : Iter) : Prop :=
  ∃ code, it.ev = PollResult.key false code ∧ isQuitB code = true

theorem runLoop_broke {len : Nat} {iters : List Iter} {s s' : PlaybackState}
    (h : runLoop len iters s = .broke s') : ∃ it ∈ iters, isQuitIter it := by
  induction iters generalizing s with
  | nil => simp [runLoop] at h
  | cons it rest ih =>
      simp only [runLoop] at h
      rcases hd : delayMs s.wpm with _ | delay
      · rw [hd] at h; exact absurd h (by simp)
      · rw [hd] at h
        by_cases hio : it.ioFail
        · simp [hio] at h
        · simp only [hio, Bool.false_eq_true, if_false] at h
          rcases hev : it.ev with _ | _ | ⟨rel, code⟩
          · rw [hev] at h
            obtain ⟨it2, hmem, hq⟩ := ih h
            exact ⟨it2, List.mem_cons_of_mem _ hmem, hq⟩
          · rw [hev] at h
            obtain ⟨it2, hmem, hq⟩ := ih h
            exact ⟨it2, List.mem_cons_of_mem _ hmem, hq⟩
          · rw [hev] at h
            cases rel with
            | true =>
                obtain ⟨it2, hmem, hq⟩ := ih h
                exact ⟨it2, List.mem_cons_of_mem _ hmem, hq⟩
            | false =>
                by_cases hq : isQuitB code
                · exact ⟨it, List.mem_cons_self _ _, code, hev, hq⟩
                · simp only [hq, Bool.false_eq_true, if_false] at h
                  obtain ⟨it2, hmem, hq2⟩ := ih h
                  exact ⟨it2, List.mem_cons_of_mem _ hmem, hq2⟩

theorem decrease_rate_ge_25 (s : PlaybackState) : 25 ≤ (decrease_rate s).wpm :=
  le_max_right _ _

theorem decrease_rate_iterate_ge {k : Nat} (hk : 1 ≤ k) (s : PlaybackState) :
    25 ≤ (decrease_rate^[k] s).wpm := by
  induction k generalizing s with
  | zero => omega
  | succ j ih =>
      rw [Function.iterate_succ_apply]
      cases j with
      | zero => exact decrease_rate_ge_25 s
      | succ i => exact ih (by omega) _

/-- C7: `get_orp_index` is a total function of the length sending `L ≤ 1` to
bucket 0, `2..5` to 1, `6..9` to 2, `10..13` to 3 and `L ≥ 14` to 4, and its
value always lies in `[0, max 0 (L - 1)]`. -/
theorem c7_orp_buckets (L : Nat) :
    (L ≤ 1 → get_orp_index L = 0) ∧
    (2 ≤ L → L ≤ 5 → get_orp_index L = 1) ∧
    (6 ≤ L → L ≤ 9 → get_orp_index L = 2) ∧
    (10 ≤ L → L ≤ 13 → get_orp_index L = 3) ∧
    (14 ≤ L → get_orp_index L = 4) ∧
    get_orp_index L ≤ max 0 (L - 1) := by
  unfold get_orp_index
  split_ifs <;> refine ⟨?_, ?_, ?_, ?_, ?_, ?_⟩ <;> omega

/-- Witness for C7 at the boundary lengths 1, 8 and 14. -/
theorem c7_orp_buckets_witness :
    get_orp_index 1 = 0 ∧ get_orp_index 8 = 2 ∧ get_orp_index 14 = 4 :=
  ⟨(c7_orp_buckets 1).1 (by norm_num),
   (c7_orp_buckets 8).2.2.1 (by norm_num) (by norm_num),
   (c7_orp_buckets 14).2.2.2.2.1 (by norm_num)⟩

/-- C4 counterexample: at the CLI-reachable rate `u32::MAX = 4294967295`,
`increase_rate` saturates instead of adding 25, so the new rate is not
`rate + 25`. -/
theorem c4_counterexample :
    (increase_rate ⟨0, 4294967295, true, 0⟩).wpm = 4294967295 ∧
    (4294967295 : Nat) ≠ 4294967295 + 25 := by
  constructor
  · show satAdd32 4294967295 25 = 4294967295
    decide
  · omega

/-- C4 amended: `decrease_rate` yields `max (rate - 25) 25`, so the rate never
drops below 25 under any number of repeated decreases; `increase_rate` adds
exactly 25 whenever `rate + 25` still fits in a `u32`, and saturates at
`u32::MAX` (so an upper bound is enforced at `2^32 - 1`). -/
theorem c4_rate_arith (s : PlaybackState) (k : Nat) :
    (decrease_rate s).wpm = max (s.wpm - 25) 25 ∧
    25 ≤ (decrease_rate s).wpm ∧
    (1 ≤ k → 25 ≤ (decrease_rate^[k] s).wpm) ∧
    (s.wpm + 25 ≤ u32Max → (increase_rate s).wpm = s.wpm + 25) ∧
    (increase_rate s).wpm = min (s.wpm + 25) u32Max := by
  refine ⟨rfl, decrease_rate_ge_25 s, fun hk => decrease_rate_iterate_ge hk s, ?_, rfl⟩
  intro hfit
  show satAdd32 s.wpm 25 = s.wpm + 25
  unfold satAdd32
  omega

/-- Witness for C4 at rate 250: one decrease gives 225, one increase 275,
and ten decreases from 250 floor out at 25. -/
theorem c4_rate_arith_witness :
    25 ≤ (decrease_rate^[10] ⟨0, 250, true, 0⟩).wpm ∧
    (increase_rate ⟨0, 250, true, 0⟩).wpm = 275 := by
  have h := c4_rate_arith ⟨0, 250, true, 0⟩ 10
  exact ⟨h.2.2.1 (by norm_num), h.2.2.2.1 (by decide)⟩

/-- C5: for any state with `index ≤ len` the tick never moves the index past
`len`, and when the advance is due with no next word left the same tick sets
`index = len` and `paused = true` together. -/
theorem c5_tick_never_past_len (len delay now : Nat) (s : PlaybackState)
    (hle : s.current_idx ≤ len) :
    (tick len delay now s).current_idx ≤ len ∧
    (s.paused = false → delay ≤ now - s.last_update → len ≤ s.current_idx + 1 →
      (tick len delay now s).current_idx = len ∧ (tick len delay now s).paused = true) := by
  unfold tick
  constructor
  · split
    · split
      · next h => exact Nat.le_of_lt h
      · exact le_refl len
    · exact hle
  · intro hp hd hlast
    rw [if_pos ⟨hp, hd⟩, if_neg (by omega)]
    exact ⟨rfl, rfl⟩

/-- Witness for C5: a due tick at the last word of a three-word list lands on
`index = 3`, `paused = true` in one step. -/
theorem c5_tick_never_past_len_witness :
    (tick 3 1000 1000 ⟨2, 250, false, 0⟩).current_idx ≤ 3 ∧
    ((⟨2, 250, false, 0⟩ : PlaybackState).paused = false →
      1000 ≤ 1000 - (⟨2, 250, false, 0⟩ : PlaybackState).last_update →
      3 ≤ (⟨2, 250, false, 0⟩ : PlaybackState).current_idx + 1 →
      (tick 3 1000 1000 ⟨2, 250, false, 0⟩).current_idx = 3 ∧
      (tick 3 1000 1000 ⟨2, 250, false, 0⟩).paused = true) :=
  c5_tick_never_past_len 3 1000 1000 ⟨2, 250, false, 0⟩ (by norm_num)

/-- C9: the rate keys change only `wpm` — index, paused flag and
`last_update` are untouched — while space and the step keys reset
`last_update` to now; consequently a rate increase can make the tick fire at
an elapsed time at which it previously would not have fired. -/
theorem c9_rate_keys_frame (s : PlaybackState) (now len : Nat) :
    (increase_rate s).current_idx = s.current_idx ∧
    (increase_rate s).paused = s.paused ∧
    (increase_rate s).last_update = s.last_update ∧
    (decrease_rate s).current_idx = s.current_idx ∧
    (decrease_rate s).paused = s.paused ∧
    (decrease_rate s).last_update = s.last_update ∧
    (toggle_pause now s).last_update = now ∧
    (step_forward len now s).last_update = now ∧
    (step_backward now s).last_update = now ∧
    (∃ (t : PlaybackState) (e l : Nat),
      tick l (60000 / t.wpm) e t = t ∧
      tick l (60000 / (increase_rate t).wpm) e (increase_rate t) ≠ increase_rate t) := by
  refine ⟨rfl, rfl, rfl, rfl, rfl, rfl, rfl, rfl, rfl,
    ⟨⟨0, 25, false, 0⟩, 2000, 3, by decide, by decide⟩⟩

/-- C10: `step_backward` in the Finished state of a non-empty word list moves
the index to `len - 1` (strictly below `len`), leaves `paused` exactly as it
was — in particular still `true` when it was `true` — and resets
`last_update` to now. -/
theorem c10_backward_from_finished (len now : Nat) (s : PlaybackState)
    (hlen : 1 ≤ len) (hidx : s.current_idx = len) :
    (step_backward now s).current_idx = len - 1 ∧
    (step_backward now s).current_idx < len ∧
    (step_backward now s).paused = s.paused ∧
    (s.paused = true → (step_backward now s).paused = true) ∧
    (step_backward now s).last_update = now :=
  ⟨(by omega : s.current_idx - 1 = len - 1),
   (by omega : s.current_idx - 1 < len),
   rfl, fun hp => hp, rfl⟩

/-- Witness for C10 on a one-word list in the Finished state. -/
theorem c10_backward_from_finished_witness :
    (step_backward 7 ⟨1, 250, true, 0⟩).current_idx = 0 ∧
    (step_backward 7 ⟨1, 250, true, 0⟩).current_idx < 1 ∧
    (step_backward 7 ⟨1, 250, true, 0⟩).paused = (⟨1, 250, true, 0⟩ : PlaybackState).paused ∧
    ((⟨1, 250, true, 0⟩ : PlaybackState).paused = true →
      (step_backward 7 ⟨1, 250, true, 0⟩).paused = true) ∧
    (step_backward 7 ⟨1, 250, true, 0⟩).last_update = 7 :=
  c10_backward_from_finished 1 7 ⟨1, 250, true, 0⟩ (by norm_num) rfl

/-- C2 counterexample: on a one-word list in the Finished state
(`index = len = 1`), the `'n'` handler leaves the index at `len` — it does
not move it strictly below `words.len()`, so step-forward does not clear the
Finished condition. -/
theorem c2_counterexample :
    (step_forward 1 7 ⟨1, 250, true, 0⟩).current_idx = 1 ∧
    ¬ (step_forward 1 7 ⟨1, 250, true, 0⟩).current_idx < 1 := by
  decide

/-- C2 amended: while `index = len` (Finished, non-empty list), only
`step_backward` clears the condition — it moves the index to `len - 1 < len`
with `paused` unchanged (hence still Paused when it was) — whereas
`step_forward` leaves the index at `len` and only resets `last_update`. -/
theorem c2_steps_at_finished (len now : Nat) (s : PlaybackState)
    (hlen : 1 ≤ len) (hidx : s.current_idx = len) :
    (step_backward now s).current_idx = len - 1 ∧
    (step_backward now s).current_idx < len ∧
    (step_backward now s).paused = s.paused ∧
    (step_forward len now s).current_idx = len ∧
    (step_forward len now s).paused = s.paused ∧
    (step_forward len now s).last_update = now := by
  refine ⟨(by omega : s.current_idx - 1 = len - 1),
    (by omega : s.current_idx - 1 < len), rfl, ?_, rfl, rfl⟩
  show (if s.current_idx + 1 < len then s.current_idx + 1 else s.current_idx) = len
  rw [if_neg (by omega)]
  exact hidx

/-- Witness for C2 (amended) on a two-word list in the Finished state. -/
theorem c2_steps_at_finished_witness :
    (step_backward 9 ⟨2, 250, true, 5⟩).current_idx = 1 ∧
    (step_backward 9 ⟨2, 250, true, 5⟩).current_idx < 2 ∧
    (step_backward 9 ⟨2, 250, true, 5⟩).paused = (⟨2, 250, true, 5⟩ : PlaybackState).paused ∧
    (step_forward 2 9 ⟨2, 250, true, 5⟩).current_idx = 2 ∧
    (step_forward 2 9 ⟨2, 250, true, 5⟩).paused = (⟨2, 250, true, 5⟩ : PlaybackState).paused ∧
    (step_forward 2 9 ⟨2, 250, true, 5⟩).last_update = 9 :=
  c2_steps_at_finished 2 9 ⟨2, 250, true, 5⟩ (by norm_num) rfl

/-- C1 counterexample: the stated invariant is not preserved by every
operation sequence. On a one-word list at 60 wpm (interval 1000 ms):
resume at time 0, let the due tick at time 2000 finish the sequence
(`index = 1 = len`, `paused = true`), then press space again — the state now
has `index = len` with `paused = false`. -/
theorem c1_counterexample :
    ¬ (∀ (len wpm0 : Nat) (s : PlaybackState),
        Reachable len wpm0 s → PlaybackInv len s) := by
  intro h
  have st1 : Step 1 (initState 60) (toggle_pause 0 (initState 60)) :=
    Step.toggle (initState 60) 0
  have st2 : Step 1 (toggle_pause 0 (initState 60))
      (tick 1 1000 2000 (toggle_pause 0 (initState 60))) :=
    Step.doTick (toggle_pause 0 (initState 60)) 1000 2000
  have st3 : Step 1 (tick 1 1000 2000 (toggle_pause 0 (initState 60)))
      (toggle_pause 3000 (tick 1 1000 2000 (toggle_pause 0 (initState 60)))) :=
    Step.toggle (tick 1 1000 2000 (toggle_pause 0 (initState 60))) 3000
  have h1 : Reachable 1 60
      (toggle_pause 3000 (tick 1 1000 2000 (toggle_pause 0 (initState 60)))) :=
    ((Relation.ReflTransGen.refl.tail st1).tail st2).tail st3
  have h2 := (h 1 60 _ h1).2
  have h3 : (toggle_pause 3000 (tick 1 1000 2000 (toggle_pause 0 (initState 60)))).current_idx
      = 1 := by decide
  have h4 : (toggle_pause 3000 (tick 1 1000 2000 (toggle_pause 0 (initState 60)))).paused
      = false := by decide
  exact absurd ((h2 h3).symm.trans h4) (by decide)

/-- C1 amended: `index ≤ words.len()` does hold in every reachable state; the
second conjunct `index = len → paused` holds on every state reachable without
pressing space while Finished (every operation except a `toggle_pause` at
`index = len` preserves the full invariant; that one toggle yields
`index = len` with `paused = false`, repaired by the next due tick). -/
theorem c1_invariant (len wpm0 : Nat) (s : PlaybackState) :
    (Reachable len wpm0 s → s.current_idx ≤ len) ∧
    (ReachableNT len wpm0 s →
      s.current_idx ≤ len ∧ (s.current_idx = len → s.paused = true)) :=
  ⟨fun h => idx_le_of_reachable h, fun h => inv_of_reachableNT h⟩

/-- Witness for C1 (amended) at the initial state of a one-word list. -/
theorem c1_invariant_witness :
    (initState 250).current_idx ≤ 1 ∧
    ((initState 250).current_idx ≤ 1 ∧
      ((initState 250).current_idx = 1 → (initState 250).paused = true)) :=
  ⟨(c1_invariant 1 250 (initState 250)).1 Relation.ReflTransGen.refl,
   (c1_invariant 1 250 (initState 250)).2 Relation.ReflTransGen.refl⟩

/-- C3 counterexample: the CLI accepts `--wpm 0`, and with it the interval
computation `60_000 / wpm` divides by zero — the first loop iteration
panics (modelled as `none` / `MainResult.panicked`), so not every
CLI-supplied wpm value is failure-free. -/
theorem c3_counterexample :
    delayMs 0 = none ∧
    runMain (Except.ok [Char.ofNat 97]) 0 true
      [⟨false, 100, PollResult.timeout⟩] true = MainResult.panicked := by
  constructor
  · rfl
  · decide

/-- C3 amended: for every CLI-supplied wpm of at least 1 (in particular the
default 250 and every rate reachable from a positive one), no operation
fails: the interval computation is defined, rate arithmetic saturates, the
index stays within `0..=len`, and the only word access, guarded by
`current_idx < words.len()`, is in range. -/
theorem c3_no_failure (len wpm0 : Nat) (s : PlaybackState)
    (hw : 1 ≤ wpm0) (h : Reachable len wpm0 s) :
    (delayMs s.wpm).isSome = true ∧ 1 ≤ s.wpm ∧ s.current_idx ≤ len ∧
    (∀ (words : List (List Char)), words.length = len → s.current_idx < len →
      (words[s.current_idx]?).isSome = true) := by
  have hwpos := wpm_pos_of_reachable hw h
  refine ⟨?_, hwpos, idx_le_of_reachable h, ?_⟩
  · unfold delayMs
    rw [if_neg (by omega)]
    rfl
  · intro words hlen hlt
    rw [List.getElem?_eq_getElem (by omega)]
    rfl

/-- Witness for C3 (amended) at the initial state with the default rate. -/
theorem c3_no_failure_witness :
    (delayMs (initState 250).wpm).isSome = true ∧ 1 ≤ (initState 250).wpm ∧
    (initState 250).current_idx ≤ 1 ∧
    (∀ (words : List (List Char)), words.length = 1 →
      (initState 250).current_idx < 1 →
      (words[(initState 250).current_idx]?).isSome = true) :=
  c3_no_failure 1 250 (initState 250) (by norm_num) Relation.ReflTransGen.refl

/-- C6: for every rate of at least 25 the interval is defined and equals
`60000 / rate` under truncating integer division (characterized by the
division bounds), rate 250 gives 240 ms, and — because line 80 recomputes the
interval from the current `wpm` at the start of every iteration — a live rate
change governs the next iteration's advance check: at 25 wpm (2400 ms) with
2000 ms elapsed, pressing `'u'` makes the following iteration tick at the
50 wpm interval of 1200 ms and advance. -/
theorem c6_interval (rate : Nat) :
    (25 ≤ rate → ∃ d, delayMs rate = some d ∧ d = 60000 / rate ∧
      d * rate ≤ 60000 ∧ 60000 < (d + 1) * rate) ∧
    delayMs 250 = some 240 ∧
    runLoop 3 [⟨false, 2000, PollResult.key false (KeyCode.char 'u')⟩,
        ⟨false, 2000, PollResult.timeout⟩] ⟨0, 25, false, 0⟩ =
      LoopOutcome.fuelOut ⟨1, 50, false, 2000⟩ := by
  refine ⟨?_, by decide, by decide⟩
  intro hrate
  refine ⟨60000 / rate, ?_, rfl, Nat.div_mul_le_self 60000 rate, ?_⟩
  · unfold delayMs
    rw [if_neg (by omega)]
  · have hmod : 60000 % rate < rate := Nat.mod_lt _ (by omega)
    have hdm : 60000 / rate * rate + 60000 % rate = 60000 := Nat.div_add_mod' 60000 rate
    calc 60000 = 60000 / rate * rate + 60000 % rate := hdm.symm
      _ < 60000 / rate * rate + rate := by omega
      _ = (60000 / rate + 1) * rate := by ring

/-- Witness for C6 at rate 60: the interval is 1000 ms and satisfies the
truncating-division bounds. -/
theorem c6_interval_witness :
    ∃ d, delayMs 60 = some d ∧ d = 60000 / 60 ∧
      d * 60 ≤ 60000 ∧ 60000 < (d + 1) * 60 :=
  (c6_interval 60).1 (by norm_num)

/-- C8: acquired text with no whitespace tokens makes `main` print the
diagnostic and return `Ok(())` (exit code 0) without entering raw mode or
the loop; and the only ways `main` exits with code 0 are that empty-token
path and a normal quit (a non-release `'q'`/escape key) followed by a
successful terminal restore — every other path returns an error or panics. -/
theorem c8_exit_paths (acq : Except Unit (List Char)) (wpm0 : Nat)
    (setupOk : Bool) (iters : List Iter) (teardownOk : Bool) :
    (∀ text, acq = Except.ok text → split_whitespace text = [] →
      runMain acq wpm0 setupOk iters teardownOk = MainResult.exitOk true false false) ∧
    (∀ d r l, runMain acq wpm0 setupOk iters teardownOk = MainResult.exitOk d r l →
      ∃ text, acq = Except.ok text ∧
        ((split_whitespace text = [] ∧ d = true ∧ r = false ∧ l = false) ∨
         (d = false ∧ r = true ∧ l = true ∧ ∃ it ∈ iters, isQuitIter it))) := by
  cases acq with
  | error e =>
      constructor
      · intro text ht
        exact absurd ht (by simp)
      · intro d r l hrun
        exact absurd hrun (by simp [runMain])
  | ok text =>
      constructor
      · intro t ht hempty
        obtain rfl : text = t := by injection ht
        simp [runMain, hempty]
      · intro d r l hrun
        refine ⟨text, rfl, ?_⟩
        by_cases he : (split_whitespace text).isEmpty
        · left
          simp only [runMain, he, if_pos] at hrun
          obtain ⟨hd, hr, hl⟩ := MainResult.exitOk.inj hrun.symm
          exact ⟨List.isEmpty_iff.mp he, hd, hr, hl⟩
        · right
          simp only [runMain, he, Bool.false_eq_true, if_false] at hrun
          cases setupOk with
          | false => simp at hrun
          | true =>
              simp only [Bool.not_true, Bool.false_eq_true, if_false] at hrun
              rcases hl : runLoop (split_whitespace text).length iters (initState wpm0) with
                s' | _ | _ | s'
              · rw [hl] at hrun
                cases teardownOk with
                | false => simp at hrun
                | true =>
                    simp only [if_pos] at hrun
                    obtain ⟨hd, hr, hll⟩ := MainResult.exitOk.inj hrun.symm
                    exact ⟨hd, hr, hll, runLoop_broke hl⟩
              · rw [hl] at hrun; exact absurd hrun (by simp)
              · rw [hl] at hrun; exact absurd hrun (by simp)
              · rw [hl] at hrun; exact absurd hrun (by simp)

/-- Witness for C8: a whitespace-only text exits 0 with only the diagnostic,
and a run over the one-word text that quits immediately exits 0 through the
loop. -/
theorem c8_exit_paths_witness :
    runMain (Except.ok [Char.ofNat 32, Char.ofNat 9]) 250 true [] true =
      MainResult.exitOk true false false ∧
    (∃ text, (Except.ok [Char.ofNat 97] : Except Unit (List Char)) = Except.ok text ∧
      ((split_whitespace text = [] ∧ false = true ∧ true = false ∧ true = false) ∨
       (false = false ∧ true = true ∧ true = true ∧
         ∃ it ∈ [(⟨false, 0, PollResult.key false (KeyCode.char 'q')⟩ : Iter)],
           isQuitIter it))) :=
  ⟨(c8_exit_paths (Except.ok [Char.ofNat 32, Char.ofNat 9]) 250 true [] true).1
      [Char.ofNat 32, Char.ofNat 9] rfl (by decide),
   (c8_exit_paths (Except.ok [Char.ofNat 97]) 250 true
      [⟨false, 0, PollResult.key false (KeyCode.char 'q')⟩] true).2
      false true true (by decide)⟩
